import Mathlib

/-
Verification of the keiba (horse-race card) extraction engine
(`keiba_data_organizer.py`) against its specification.

The extraction pipeline is embedded shallowly: Python strings are Lean
`String`s, lines are `List String`, and every regular-expression test of
the source is translated into an explicit, executable scanner over
`List Char` that realises the leftmost-match / greedy-quantifier
semantics the Python `re` module exhibits on the concrete pattern.
Character classes written with `\d` or `\s` in the source are modelled
over the character ranges that occur in this domain (ASCII digits plus
full-width digits; ASCII whitespace plus the ideographic space).
-/

-- ## Basic Python-string primitives

-- Whitespace as stripped by Python's `str.strip` (restricted to the
-- whitespace characters that can occur in this domain).
def isPySpace (c : Char) : Bool :=
  decide (c = ' ' ∨ c = '\t' ∨ c = '\n' ∨ c = '\r' ∨ c = '\x0b' ∨ c = '\x0c' ∨ c = '　')

-- The `\d` class: ASCII digits and full-width digits.
def isPyDigit (c : Char) : Bool :=
  decide ((0x30 ≤ c.toNat ∧ c.toNat ≤ 0x39) ∨ (0xFF10 ≤ c.toNat ∧ c.toNat ≤ 0xFF19))

-- `str.strip()`.
def pyStripL (cs : List Char) : List Char :=
  ((cs.dropWhile isPySpace).reverse.dropWhile isPySpace).reverse

def pyStrip (s : String) : String := ⟨pyStripL s.data⟩

-- Does the second list start with the first one?
def leadsWith : List Char → List Char → Bool
  | [], _ => true
  | _ :: _, [] => false
  | a :: as, b :: bs => a == b && leadsWith as bs

-- Python's `needle in hay` substring test.
def containsSubL (needle : List Char) : List Char → Bool
  | [] => leadsWith needle []
  | c :: cs => leadsWith needle (c :: cs) || containsSubL needle cs

def containsSub (needle hay : String) : Bool := containsSubL needle.data hay.data

-- `re.search`: try a position matcher at every start position, leftmost
-- success wins.
def scanFirst {α : Type} (f : List Char → Option α) : List Char → Option α
  | [] => none
  | c :: cs =>
    match f (c :: cs) with
    | some r => some r
    | none => scanFirst f cs

-- Boolean variant of `scanFirst`.
def scanHas (f : List Char → Bool) : List Char → Bool
  | [] => false
  | c :: cs => f (c :: cs) || scanHas f cs

-- Consume exactly `n` digit characters, returning them and the rest.
def takeDigitsN : Nat → List Char → Option (List Char × List Char)
  | 0, cs => some ([], cs)
  | _ + 1, [] => none
  | n + 1, c :: cs =>
    if isPyDigit c then
      match takeDigitsN n cs with
      | some (ds, r) => some (c :: ds, r)
      | none => none
    else none

-- First occurrence of `needle`, returning the suffix right after it
-- (realises a `needle.*` step of a regex).
def afterSub (needle : List Char) : List Char → Option (List Char)
  | [] => if leadsWith needle [] then some [] else none
  | c :: cs =>
    if leadsWith needle (c :: cs) then some ((c :: cs).drop needle.length)
    else afterSub needle cs

def digitVal (c : Char) : Nat :=
  if 0xFF10 ≤ c.toNat then c.toNat - 0xFF10 else c.toNat - 0x30

def natOfDigits (ds : List Char) : Nat := ds.foldl (fun a c => a * 10 + digitVal c) 0

-- Decimal rendering of a natural number (fuel-based, kernel-reducible).
def natToChars : Nat → Nat → List Char
  | 0, _ => []
  | fuel + 1, n =>
    if n < 10 then [Char.ofNat (0x30 + n)]
    else natToChars fuel (n / 10) ++ [Char.ofNat (0x30 + n % 10)]

def natRender (n : Nat) : String := ⟨natToChars (n + 1) n⟩

-- `' '.join(parts)`.
def joinSpaces : List String → String
  | [] => ""
  | [s] => s
  | s :: rest => s ++ " " ++ joinSpaces rest

-- Python's `str.split()` (split on whitespace runs, no empty parts).
def splitWsAux : List Char → List Char → List (List Char)
  | [], acc => if acc.isEmpty then [] else [acc.reverse]
  | c :: cs, acc =>
    if isPySpace c then
      if acc.isEmpty then splitWsAux cs [] else acc.reverse :: splitWsAux cs []
    else splitWsAux cs (c :: acc)

def splitWs (s : String) : List String := (splitWsAux s.data []).map (fun cs => ⟨cs⟩)

-- `text.split('\n')` (empty pieces kept, as in Python).
def splitNl : List Char → List (List Char)
  | [] => [[]]
  | c :: cs =>
    if c = '\n' then [] :: splitNl cs
    else
      match splitNl cs with
      | [] => [[c]]
      | h :: t => (c :: h) :: t

-- `[line.strip() for line in text.split('\n') if line.strip()]`
def normalizeLines (text : String) : List String :=
  ((splitNl text.data).map (fun cs => pyStrip ⟨cs⟩)).filter (fun l => l ≠ "")

-- ## Data model (field-for-field from the Python dicts)

structure RaceInfo where
  race_number : String
  race_name : String
  date : String
  time : String
  venue : String
  course_type : String
  distance : String
  direction : String
  weather : String
  track_condition : String
  grade : String
  prize_money : String
  entry_count : String
deriving DecidableEq

def initRaceInfo : RaceInfo :=
  { race_number := "", race_name := "", date := "", time := "", venue := ""
  , course_type := "", distance := "", direction := "", weather := ""
  , track_condition := "", grade := "", prize_money := "", entry_count := "" }

structure PastRaceResult where
  date : String
  venue : String
  race_name : String
  course_info : String
  finish_position : String
  passage_position : String
  field_size : String
  popularity : String
  jockey : String
  weight : String
  time : String
  track_condition : String
  winner_name : String
  time_diff : String
deriving DecidableEq

structure EntrantEntry where
  frame_number : String
  horse_number : String
  horse_name : String
  father : String
  mother : String
  mother_father : String
  trainer : String
  jockey : String
  weight : String
  age : String
  sex : String
  coat_color : String
  odds : String
  popularity : String
  past_races : List PastRaceResult
  stable_type : String
  recent_form : String
  load_weight : String
deriving DecidableEq

structure TrainingRecord where
  horse_name : String
  date : String
  course : String
  condition : String
  jockey : String
  time : String
  evaluation : String
deriving DecidableEq

-- ## Shared line patterns

-- `re.match(r'^(\d+)\s+(\d+)\s*$', s)`: the frame/horse-number header,
-- with the two captured digit groups.
def headerMatch (s : String) : Option (String × String) :=
  let cs := s.data
  let d1 := cs.takeWhile isPyDigit
  let r1 := cs.drop d1.length
  let w1 := r1.takeWhile isPySpace
  let r2 := r1.drop w1.length
  let d2 := r2.takeWhile isPyDigit
  let r3 := r2.drop d2.length
  let w2 := r3.takeWhile isPySpace
  if d1 ≠ [] ∧ w1 ≠ [] ∧ d2 ≠ [] ∧ r3.drop w2.length = [] then some (⟨d1⟩, ⟨d2⟩)
  else none

-- The header test the entrant segmenter applies (on the stripped line).
def isHeaderLine (l : String) : Bool := (headerMatch (pyStrip l)).isSome

-- `\d{4}/\d{2}/\d{2}` at the current position, returning the suffix.
def dateSlashConsume (cs : List Char) : Option (List Char) :=
  match takeDigitsN 4 cs with
  | some (_, '/' :: r) =>
    match takeDigitsN 2 r with
    | some (_, '/' :: r2) =>
      match takeDigitsN 2 r2 with
      | some (_, r3) => some r3
      | none => none
    | _ => none
  | _ => none

-- `\d{4}\.\d{2}\.\d{2}` at the current position, returning the suffix.
def dateDotsConsume (cs : List Char) : Option (List Char) :=
  match takeDigitsN 4 cs with
  | some (_, '.' :: r) =>
    match takeDigitsN 2 r with
    | some (_, '.' :: r2) =>
      match takeDigitsN 2 r2 with
      | some (_, r3) => some r3
      | none => none
    | _ => none
  | _ => none

-- `re.search(r'^\d+\.\d+$', s)`: a bare decimal number.
def decimalExactL (cs : List Char) : Bool :=
  let d1 := cs.takeWhile isPyDigit
  match cs.drop d1.length with
  | '.' :: r =>
    let d2 := r.takeWhile isPyDigit
    decide (d1 ≠ [] ∧ d2 ≠ [] ∧ r.drop d2.length = [])
  | _ => false

def decimalExact (s : String) : Bool := decimalExactL s.data

-- `re.search(r'\d+\.\d+', s)` as a Boolean test.
def hasDecimal (s : String) : Bool :=
  scanHas (fun cs =>
    let d1 := cs.takeWhile isPyDigit
    match cs.drop d1.length with
    | '.' :: r => decide (d1 ≠ []) && decide (r.takeWhile isPyDigit ≠ [])
    | _ => false) s.data

-- ## 4.1 Training-Section Filter (`filter_training_section`)

-- `'調教タイム' in line`.
def trainingHeading (l : String) : Bool := containsSub "調教タイム" l

-- `re.search(r'枠\s+馬\s*番.*馬名.*日付.*コース.*馬場.*乗り役', line)`:
-- the anchored head `枠\s+馬\s*番` at some position ...
def colAnchorAt (cs : List Char) : Option (List Char) :=
  match cs with
  | '枠' :: r =>
    let w1 := r.takeWhile isPySpace
    if w1 = [] then none
    else
      match r.drop w1.length with
      | '馬' :: r2 =>
        let w2 := r2.takeWhile isPySpace
        match r2.drop w2.length with
        | '番' :: r3 => some r3
        | _ => none
      | _ => none
  | _ => none

-- ... followed by the column names in order.
def colHeaderPat (l : String) : Bool :=
  match scanFirst colAnchorAt l.data with
  | none => false
  | some r =>
    (afterSub "馬名".data r >>= fun r1 =>
     afterSub "日付".data r1 >>= fun r2 =>
     afterSub "コース".data r2 >>= fun r3 =>
     afterSub "馬場".data r3 >>= fun r4 =>
     afterSub "乗り役".data r4).isSome

-- The twelve `training_patterns` checked while in the skipping state.
def trainPat1 (l : String) : Bool :=
  match afterSub "前走".data l.data with
  | none => false
  | some r =>
    match scanFirst dateSlashConsume r with
    | none => false
    | some r2 =>
      scanHas (fun cs =>
        match cs with
        | '美' :: c :: _ => c == '坂' || c == 'Ｗ'
        | _ => false) r2

def trainPat2 (l : String) : Bool :=
  match scanFirst (fun cs =>
      match cs with
      | '美' :: c :: r => if c = '坂' ∨ c = 'Ｗ' then some r else none
      | _ => none) l.data with
  | none => false
  | some r =>
    match afterSub ['良'] r with
    | none => false
    | some r2 =>
      r2.any (fun c =>
        decide (c = '助' ∨ c = '手' ∨ c = '騎' ∨ c = '杉' ∨ c = '原' ∨ c = '内' ∨ c = '田'))

def trainPat4 (l : String) : Bool :=
  match l.data with
  | '(' :: r =>
    (match r.reverse with
     | ')' :: rr => decimalExactL rr.reverse
     | _ => false)
  | _ => false

def trainPat5 (l : String) : Bool :=
  (afterSub "外".data l.data >>= fun r1 =>
   afterSub "強め".data r1 >>= fun r2 =>
   afterSub "併せ".data r2 >>= fun r3 =>
   afterSub "秒".data r3 >>= fun r4 =>
   afterSub "先着".data r4).isSome

-- `^\d+\s+[ＧＢＣ]強\s+動き.*[ＢＣ]$`
def trainPat6 (l : String) : Bool :=
  let cs := l.data
  let d := cs.takeWhile isPyDigit
  let r1 := cs.drop d.length
  let w1 := r1.takeWhile isPySpace
  if d = [] ∨ w1 = [] then false
  else
    match r1.drop w1.length with
    | g :: '強' :: r2 =>
      if g = 'Ｇ' ∨ g = 'Ｂ' ∨ g = 'Ｃ' then
        let w2 := r2.takeWhile isPySpace
        if w2 = [] then false
        else
          match r2.drop w2.length with
          | '動' :: 'き' :: r3 =>
            (match r3.reverse with
             | c :: _ => decide (c = 'Ｂ' ∨ c = 'Ｃ')
             | [] => false)
          | _ => false
      else false
    | _ => false

-- `位置\s+脚色\s+評価`
def trainPat11 (l : String) : Bool :=
  scanHas (fun cs =>
    if leadsWith "位置".data cs then
      let r := cs.drop 2
      let w1 := r.takeWhile isPySpace
      if w1 = [] then false
      else
        if leadsWith "脚色".data (r.drop w1.length) then
          let r2 := (r.drop w1.length).drop 2
          let w2 := r2.takeWhile isPySpace
          if w2 = [] then false
          else leadsWith "評価".data (r2.drop w2.length)
        else false
    else false) l.data

def isTrainingDataLine (l : String) : Bool :=
  trainPat1 l ||
  trainPat2 l ||
  decimalExact l ||
  trainPat4 l ||
  trainPat5 l ||
  trainPat6 l ||
  containsSub "提供：デイリースポーツ" l ||
  containsSub "すべての最終調教を見る" l ||
  decide (l.data = ['-']) ||
  containsSub "ラップ表示" l ||
  trainPat11 l ||
  containsSub "まずまず" l || containsSub "動き上々" l

def sectionEndTerms : List String :=
  ["いま競輪が熱い", "netkeiba", "利用者数", "カテゴリ",
   "ニュース", "レース", "お気に入り馬", "検索バー",
   "みんなで一緒に競馬", "URL", "© NET DREAMERS"]

def hasSectionEndTerm (l : String) : Bool := sectionEndTerms.any (fun t => containsSub t l)

def raceResumeTerms : List String := ["発走", "R", "歳以上", "クラス"]

def hasRaceResumeTerm (l : String) : Bool := raceResumeTerms.any (fun t => containsSub t l)

-- One iteration of the filter loop: next skip flag and the kept line (if
-- any).  Mirrors the Python control flow including the inner skipping
-- block, which is unreachable because the second branch already fires
-- whenever the skip flag is set.
def filterStep (skip : Bool) (line : String) : Bool × Option String :=
  if trainingHeading line then (true, none)
  else if skip || colHeaderPat line then (true, none)
  else if skip then
    if isTrainingDataLine line then (skip, none)
    else if hasSectionEndTerm line then (false, none)
    else if (headerMatch line).isSome then (false, some line)
    else if hasRaceResumeTerm line then (false, some line)
    else (skip, none)
  else (skip, some line)

def filterAux (skip : Bool) : List String → List String
  | [] => []
  | l :: ls =>
    match filterStep skip l with
    | (skip2, none) => filterAux skip2 ls
    | (skip2, some x) => x :: filterAux skip2 ls

def filter_training_section (lines : List String) : List String := filterAux false lines

-- ## 4.2 Race-Info Extractor (`extract_race_info`)

-- `re.search(r'^\d+R$', s)`: digits followed by a final `R`.
def raceNumExact (s : String) : Bool :=
  let cs := s.data
  let d := cs.takeWhile isPyDigit
  decide (d ≠ [] ∧ cs.drop d.length = ['R'])

def siteTerms : List String :=
  ["netkeiba", "netkeibaTV", "馬名で検索", "お気に入り馬", "メモ", "アカウント",
   "LIVE競輪", "トップ", "ニュース", "レース", "A I", "予想", "UMAIビルダー",
   "コラム", "地方競馬", "データベース", "ショップ", "競馬新聞", "俺プロ",
   "一口馬主", "POG", "まとめ", "前", "次", "福島", "小倉", "函館"]

-- `re.search(r'[GSL]$', line.strip())`.
def endsGSL (s : String) : Bool :=
  match s.data.reverse with
  | c :: _ => c == 'G' || c == 'S' || c == 'L'
  | [] => false

-- `re.search(r'[杯記念]', line)`: any one of those characters.
def hasCupChar (l : String) : Bool :=
  l.data.any (fun c => decide (c = '杯' ∨ c = '記' ∨ c = '念'))

-- `re.search(r'本賞金|賞金', line)`.
def hasPrizeTok (l : String) : Bool := containsSub "本賞金" l || containsSub "賞金" l

-- `re.search(r'[0-9:]|発走|天候|馬場|回|日目|頭|万円|takashi|さん', line)`.
def hasShortNameBlocker (l : String) : Bool :=
  l.data.any (fun c => decide ((0x30 ≤ c.toNat ∧ c.toNat ≤ 0x39) ∨ c = ':')) ||
  containsSub "発走" l || containsSub "天候" l || containsSub "馬場" l ||
  containsSub "回" l || containsSub "日目" l || containsSub "頭" l ||
  containsSub "万円" l || containsSub "takashi" l || containsSub "さん" l

-- The special-race-name acceptance condition (priority rules a, b, c).
def specialNameCond (l : String) : Bool :=
  endsGSL (pyStrip l) ||
  (hasCupChar l && !hasPrizeTok l) ||
  (decide ((pyStrip l).length ≤ 10) && !hasShortNameBlocker l)

-- `re.search(r'[3-9]歳以上.*クラス', line)`.
def ageClassPat (l : String) : Bool :=
  scanHas (fun cs =>
    match cs with
    | c :: r =>
      decide (0x33 ≤ c.toNat ∧ c.toNat ≤ 0x39) &&
      leadsWith "歳以上".data r && containsSubL "クラス".data (r.drop 3)
    | [] => false) l.data

-- `re.search(r'(\d{1,2}:\d{2})発走', line)`: greedy `\d{1,2}` tries the
-- two-digit form first.
def hatsoTimeAt (cs : List Char) : Option (List Char) :=
  match cs with
  | a :: b :: ':' :: c :: d :: r =>
    if isPyDigit a && isPyDigit b && isPyDigit c && isPyDigit d &&
       leadsWith "発走".data r then some [a, b, ':', c, d]
    else
      match cs with
      | a :: ':' :: c :: d :: r =>
        if isPyDigit a && isPyDigit c && isPyDigit d && leadsWith "発走".data r then
          some [a, ':', c, d]
        else none
      | _ => none
  | a :: ':' :: c :: d :: r =>
    if isPyDigit a && isPyDigit c && isPyDigit d && leadsWith "発走".data r then
      some [a, ':', c, d]
    else none
  | _ => none

-- `re.search(r'([ダ芝])(\d+)m', line)`.
def distAt (cs : List Char) : Option (Char × List Char) :=
  match cs with
  | c :: r =>
    if c = 'ダ' ∨ c = '芝' then
      let d := r.takeWhile isPyDigit
      if d ≠ [] ∧ (r.drop d.length).head? = some 'm' then some (c, d) else none
    else none
  | [] => none

-- `re.search(r'\(([右左])', line)`.
def dirAt (cs : List Char) : Option Char :=
  match cs with
  | '(' :: c :: _ => if c = '右' ∨ c = '左' then some c else none
  | _ => none

-- `re.search(r'天候:([^/]+)', line)`.
def weatherAt (cs : List Char) : Option (List Char) :=
  if leadsWith "天候:".data cs then
    let r := cs.drop 3
    let g := r.takeWhile (fun c => c != '/')
    if g = [] then none else some g
  else none

-- `re.search(r'馬場:(\S+)', line)`.
def trackAt (cs : List Char) : Option (List Char) :=
  if leadsWith "馬場:".data cs then
    let r := cs.drop 3
    let g := r.takeWhile (fun c => !isPySpace c)
    if g = [] then none else some g
  else none

-- `re.search(r'\d+回.*\d+日目', line)`.
def venuePat (l : String) : Bool :=
  scanHas (fun cs =>
    let d := cs.takeWhile isPyDigit
    decide (d ≠ []) &&
    (match cs.drop d.length with
     | '回' :: r =>
       scanHas (fun cs2 =>
         let d2 := cs2.takeWhile isPyDigit
         decide (d2 ≠ []) && leadsWith "日目".data (cs2.drop d2.length)) r
     | _ => false)) l.data

-- `re.search(r'\s+(\d+)頭$', line)` (Boolean gate).
def entryEndPat (l : String) : Bool :=
  match l.data.reverse with
  | '頭' :: r =>
    let d := r.takeWhile isPyDigit
    decide (d ≠ []) &&
    (match (r.drop d.length).head? with
     | some c => isPySpace c
     | none => false)
  | _ => false

-- `re.search(r'(\d+)頭', line)` (the captured digits).
def entryCapture (l : String) : Option String :=
  scanFirst (fun cs =>
    let d := cs.takeWhile isPyDigit
    if d ≠ [] ∧ (cs.drop d.length).head? = some '頭' then some (⟨d⟩ : String) else none) l.data

def updRaceNumber (ri : RaceInfo) (l : String) : RaceInfo :=
  if raceNumExact (pyStrip l) then { ri with race_number := pyStrip l } else ri

-- The race-name branch; the second arm mirrors the source's `elif`,
-- whose guard repeats `not race_info['race_name']` and therefore can
-- never fire.
def updRaceName (ri : RaceInfo) (l : String) : RaceInfo :=
  if ri.race_name = "" then
    if specialNameCond l then { ri with race_name := pyStrip l } else ri
  else
    if ri.race_name = "" ∧ ageClassPat l then { ri with race_name := pyStrip l } else ri

def updTime (ri : RaceInfo) (l : String) : RaceInfo :=
  match scanFirst hatsoTimeAt l.data with
  | some t => { ri with time := ⟨t⟩ }
  | none => ri

def updDist (ri : RaceInfo) (l : String) : RaceInfo :=
  match scanFirst distAt l.data with
  | some (c, d) => { ri with course_type := ⟨[c]⟩, distance := (⟨d⟩ : String) ++ "m" }
  | none => ri

def updDir (ri : RaceInfo) (l : String) : RaceInfo :=
  match scanFirst dirAt l.data with
  | some c => { ri with direction := ⟨[c]⟩ }
  | none => ri

def updWeather (ri : RaceInfo) (l : String) : RaceInfo :=
  match scanFirst weatherAt l.data with
  | some g => { ri with weather := pyStrip ⟨g⟩ }
  | none => ri

def updTrack (ri : RaceInfo) (l : String) : RaceInfo :=
  match scanFirst trackAt l.data with
  | some g => { ri with track_condition := pyStrip ⟨g⟩ }
  | none => ri

def updComposite (ri : RaceInfo) (l : String) : RaceInfo :=
  if containsSub "発走" l && containsSub "m" l then
    updTrack (updWeather (updDir (updDist (updTime ri l) l) l) l) l
  else ri

def updVenue (ri : RaceInfo) (l : String) : RaceInfo :=
  if venuePat l then { ri with venue := pyStrip l } else ri

def updEntry (ri : RaceInfo) (l : String) : RaceInfo :=
  if entryEndPat l then
    match entryCapture l with
    | some g => { ri with entry_count := g ++ "頭" }
    | none => ri
  else ri

def updPrize (ri : RaceInfo) (l : String) : RaceInfo :=
  if containsSub "本賞金:" l then { ri with prize_money := pyStrip l } else ri

-- One loop iteration.  A line that is a site term while race_name is
-- still unset hits `continue`, skipping the remaining field rules.
def raceStep (ri : RaceInfo) (l : String) : RaceInfo :=
  let ri1 := updRaceNumber ri l
  if ri1.race_name = "" ∧ pyStrip l ∈ siteTerms then ri1
  else updPrize (updEntry (updVenue (updComposite (updRaceName ri1 l) l) l) l) l

def extract_race_info (lines : List String) : RaceInfo :=
  lines.foldl raceStep initRaceInfo

-- ## 4.4 Past-Race Parser (`parse_past_race`)

def jraVenues : List String :=
  ["東京", "中山", "阪神", "京都", "新潟", "福島", "小倉", "札幌", "函館", "中京"]

def localVenues : List String :=
  ["佐賀", "笠松", "園田", "姫路", "高知", "金沢", "浦和", "船橋", "大井", "川崎",
   "盛岡", "水沢", "門別"]

def allVenues : List String := jraVenues ++ localVenues

-- `re.search(r'(\d{4})\.(\d{2})\.(\d{2})', s)` with the three groups.
def dateDotsCapture (cs : List Char) : Option (String × String × String) :=
  match takeDigitsN 4 cs with
  | some (y, '.' :: r) =>
    match takeDigitsN 2 r with
    | some (m, '.' :: r2) =>
      match takeDigitsN 2 r2 with
      | some (d, _) => some (⟨y⟩, ⟨m⟩, ⟨d⟩)
      | none => none
    | _ => none
  | _ => none

-- `re.search(r'\d{4}\.\d{2}\.\d{2}\s+(.+?)(\d+)', race_line)`.
-- After the greedy `\s+` (longest whitespace run that still lets the
-- rest match) the lazy `.+?` stops at the first digit at offset >= 1.
def firstDigitIdxGe1 (r : List Char) : Option Nat :=
  match r with
  | [] => none
  | _ :: rs =>
    match rs.findIdx? isPyDigit with
    | some j => some (j + 1)
    | none => none

def venueTryW (rest : List Char) : Nat → Option (List Char × List Char)
  | 0 => none
  | w + 1 =>
    let r := rest.drop (w + 1)
    match firstDigitIdxGe1 r with
    | some i => some (r.take i, (r.drop i).takeWhile isPyDigit)
    | none => venueTryW rest w

def venueLazyAt (cs : List Char) : Option (List Char × List Char) :=
  match dateDotsConsume cs with
  | none => none
  | some rest => venueTryW rest (rest.takeWhile isPySpace).length

-- Exact-match pass, then substring pass, over the fixed venue list.
def venueExactLoop (vs : List String) (name : String) : String :=
  match vs with
  | [] => ""
  | v :: rest => if v = name then v else venueExactLoop rest name

def venueSubLoop (vs : List String) (hay : String) : String :=
  match vs with
  | [] => ""
  | v :: rest => if containsSub v hay then v else venueSubLoop rest hay

def venueOfRaceLine (race_line : String) : String :=
  match scanFirst venueLazyAt race_line.data with
  | some (g1, _) =>
    let venue_name := pyStrip ⟨g1⟩
    let exact := venueExactLoop allVenues venue_name
    let v := if exact = "" then venueSubLoop allVenues venue_name else exact
    if v = "" then venueSubLoop allVenues race_line else v
  | none => venueSubLoop allVenues race_line

-- `re.search(r'([ダ芝])(\d+)', all_text)` (no trailing `m` here).
def courseAt (cs : List Char) : Option String :=
  match cs with
  | c :: r =>
    if c = 'ダ' ∨ c = '芝' then
      let d := r.takeWhile isPyDigit
      if d = [] then none else some ⟨c :: d⟩
    else none
  | [] => none

-- `re.search(r'(\d+:\d+\.\d+)', all_text)`.
def raceTimeAt (cs : List Char) : Option String :=
  let d1 := cs.takeWhile isPyDigit
  if d1 = [] then none
  else
    match cs.drop d1.length with
    | ':' :: r =>
      let d2 := r.takeWhile isPyDigit
      if d2 = [] then none
      else
        match r.drop d2.length with
        | '.' :: r2 =>
          let d3 := r2.takeWhile isPyDigit
          if d3 = [] then none else some ⟨d1 ++ ':' :: (d2 ++ '.' :: d3)⟩
        | _ => none
    | _ => none

-- `re.search(r'(良|稍重|重|不良)', all_text)`: alternation tried in
-- order at each position.
def condAt (cs : List Char) : Option String :=
  if leadsWith ['良'] cs then some "良"
  else if leadsWith "稍重".data cs then some "稍重"
  else if leadsWith ['重'] cs then some "重"
  else if leadsWith "不良".data cs then some "不良"
  else none

-- Digits immediately followed by the marker character; returns the
-- digit group and the suffix after the marker.
def numThenAt (mark : Char) (cs : List Char) : Option (List Char × List Char) :=
  let d := cs.takeWhile isPyDigit
  if d = [] then none
  else
    match cs.drop d.length with
    | c :: r => if c = mark then some (d, r) else none
    | [] => none

-- `re.search(r'(\d+)頭\s+(\d+)番\s+(\d+)人', all_text)`, groups 1 and 3.
def basicInfoAt (cs : List Char) : Option (List Char × List Char) :=
  match numThenAt '頭' cs with
  | none => none
  | some (d1, r) =>
    let w1 := r.takeWhile isPySpace
    if w1 = [] then none
    else
      match numThenAt '番' (r.drop w1.length) with
      | none => none
      | some (_, r2) =>
        let w2 := r2.takeWhile isPySpace
        if w2 = [] then none
        else
          match numThenAt '人' (r2.drop w2.length) with
          | none => none
          | some (d3, _) => some (d1, d3)

-- `re.search(rf'{venue}(\d+)', race_line)` primary finish-position rule,
-- first venue in list order that matches anywhere on the line.
def venueFinishAt (v : List Char) (cs : List Char) : Option String :=
  if leadsWith v cs then
    let d := (cs.drop v.length).takeWhile isPyDigit
    if d = [] then none else some ⟨d⟩
  else none

def venueFinishLoop (vs : List String) (race_line : String) : String :=
  match vs with
  | [] => ""
  | v :: rest =>
    match scanFirst (venueFinishAt v.data) race_line.data with
    | some d => d ++ "着"
    | none => venueFinishLoop rest race_line

-- `re.search(r'(\d+)-(\d+)-(\d+)-(\d+)', all_text)`, whole match.
def passage4At (cs : List Char) : Option String :=
  match numThenAt '-' cs with
  | none => none
  | some (d1, r) =>
    match numThenAt '-' r with
    | none => none
    | some (d2, r2) =>
      match numThenAt '-' r2 with
      | none => none
      | some (d3, r3) =>
        let d4 := r3.takeWhile isPyDigit
        if d4 = [] then none
        else some ⟨d1 ++ '-' :: (d2 ++ '-' :: (d3 ++ '-' :: d4))⟩

-- `re.search(r'(\d+)-(\d+)', all_text)`, whole match.
def passage2At (cs : List Char) : Option String :=
  match numThenAt '-' cs with
  | none => none
  | some (d1, r) =>
    let d2 := r.takeWhile isPyDigit
    if d2 = [] then none else some ⟨d1 ++ '-' :: d2⟩

-- `re.search(r'(\d+)着.*?(\d+)頭.*?(\d+)番', all_text)`, groups 1 and 2.
def altFinishAt (cs : List Char) : Option (List Char × List Char) :=
  match numThenAt '着' cs with
  | none => none
  | some (a, r) =>
    match scanFirst (numThenAt '頭') r with
    | none => none
    | some (b, r2) =>
      match scanFirst (numThenAt '番') r2 with
      | some _ => some (a, b)
      | none => none

-- `re.search(r'(\d+)番人気', all_text)`.
def popAt (cs : List Char) : Option String :=
  let d := cs.takeWhile isPyDigit
  if d = [] then none
  else if leadsWith "番人気".data (cs.drop d.length) then some ⟨d⟩ else none

-- The two race-name line conditions of the context scan.
def raceNameCond1 (l : String) : Bool :=
  containsSub "クラス" l || containsSub "未勝利" l || containsSub "特別" l ||
  containsSub "S" l ||
  (containsSub "G" l && (containsSub "I" l || containsSub "II" l || containsSub "III" l))

def raceNameCond2 (l : String) : Bool :=
  (decide (l.data ≠ []) && l.data.all (fun c => decide (0x41 ≤ c.toNat ∧ c.toNat ≤ 0x5A))) ||
  (match l.data with
   | 'C' :: c :: _ => isPyDigit c
   | _ => false) ||
  containsSub "杯" l || containsSub "賞" l || containsSub "記念" l ||
  containsSub "JRA" l || containsSub "交流" l

def raceNameScan : List String → String
  | [] => ""
  | l :: ls =>
    if raceNameCond1 l then pyStrip l
    else if raceNameCond2 l then pyStrip l
    else raceNameScan ls

-- ### Winner / time-diff extraction

-- The `[0-9.-]` class of the parenthesised token.
def isDiffTok (c : Char) : Bool :=
  decide ((0x30 ≤ c.toNat ∧ c.toNat ≤ 0x39) ∨ c = '.' ∨ c = '-')

-- `re.search(r'([^(]+)\(([0-9.-]+)\)', line)`: greedy run of non-`(`
-- characters, a literal `(`, a nonempty run of the token class, `)`.
def winnerDiffAt (cs : List Char) : Option (List Char × List Char) :=
  let g1 := cs.takeWhile (fun c => c != '(')
  if g1 = [] then none
  else
    match cs.drop g1.length with
    | '(' :: rest =>
      let g2 := rest.takeWhile isDiffTok
      if g2 = [] then none
      else
        match rest.drop g2.length with
        | ')' :: _ => some (g1, g2)
        | _ => none
    | _ => none

def winnerDiffSearch : List Char → Option (List Char × List Char)
  | [] => none
  | c :: cs =>
    match winnerDiffAt (c :: cs) with
    | some r => some r
    | none => winnerDiffSearch cs

-- `re.match(r'^[\d-]+$', winner_name)`: a passage-position look-alike.
def isDigitDashOnly (s : String) : Bool :=
  decide (s.data ≠ []) && s.data.all (fun c => isPyDigit c || c == '-')

-- `re.search(r'[あ-んア-ンー一-龯a-zA-Z]', winner_name)`.
def isNameChar (c : Char) : Bool :=
  decide ((0x3042 ≤ c.toNat ∧ c.toNat ≤ 0x3093) ∨
          (0x30A2 ≤ c.toNat ∧ c.toNat ≤ 0x30F3) ∨
          c.toNat = 0x30FC ∨
          (0x4E00 ≤ c.toNat ∧ c.toNat ≤ 0x9FAF) ∨
          (0x61 ≤ c.toNat ∧ c.toNat ≤ 0x7A) ∨
          (0x41 ≤ c.toNat ∧ c.toNat ≤ 0x5A))

def hasNameChar (s : String) : Bool := s.data.any isNameChar

-- Python float literal over the `[0-9.-]` alphabet: value as a pair
-- (numerator, power-of-ten denominator).
def parseUnsigned (cs : List Char) : Option (Nat × Nat) :=
  let d1 := cs.takeWhile isPyDigit
  match cs.drop d1.length with
  | [] => if d1 = [] then none else some (natOfDigits d1, 1)
  | '.' :: r =>
    let d2 := r.takeWhile isPyDigit
    if r.drop d2.length = [] then
      if d1 = [] ∧ d2 = [] then none
      else some (natOfDigits (d1 ++ d2), 10 ^ d2.length)
    else none
  | _ => none

def parsePyFloat (s : String) : Option (Int × Nat) :=
  match s.data with
  | '-' :: r =>
    match parseUnsigned r with
    | some (v, k) => some (-(v : Int), k)
    | none => none
  | cs =>
    match parseUnsigned cs with
    | some (v, k) => some ((v : Int), k)
    | none => none

-- `f"{diff_value:.1f}"`, modelled as exact decimal rounding
-- (round-half-to-even) to one fractional digit.
def fmt1 (num : Int) (den : Nat) : String :=
  let N : Int := num * 10
  let d : Int := (den : Int)
  let q := Int.ediv N d
  let r := Int.emod N d
  let n := if 2 * r < d then q else if 2 * r > d then q + 1
           else if q % 2 = 0 then q else q + 1
  if n < 0 then "-" ++ natRender (Int.toNat (-n) / 10) ++ "." ++ natRender (Int.toNat (-n) % 10)
  else natRender (Int.toNat n / 10) ++ "." ++ natRender (Int.toNat n % 10)

-- The time-diff classification on the captured token.
def classifyDiff (s : String) : String :=
  if s = "-" then "-"
  else if s = "0.0" then "0.0"
  else
    match parsePyFloat s with
    | some (num, den) => fmt1 num den
    | none => s

-- Context-line scan for `winner_name(time_diff)`, stopping at the first
-- accepted line.
def winnerScan : List String → String × String
  | [] => ("", "")
  | l :: ls =>
    match winnerDiffSearch l.data with
    | none => winnerScan ls
    | some (g1, g2) =>
      let wname := pyStrip ⟨g1⟩
      if isDigitDashOnly wname then winnerScan ls
      else if hasNameChar wname then (wname, classifyDiff ⟨g2⟩)
      else winnerScan ls

def parse_past_race (race_line : String) (context_lines : List String) : PastRaceResult :=
  let date :=
    match scanFirst dateDotsCapture race_line.data with
    | some (y, m, d) => y ++ "/" ++ m ++ "/" ++ d
    | none => ""
  let venue := venueOfRaceLine race_line
  let all_text := race_line ++ " " ++ joinSpaces context_lines
  let course_info := (scanFirst courseAt all_text.data).getD ""
  let time := (scanFirst raceTimeAt all_text.data).getD ""
  let track_condition := (scanFirst condAt all_text.data).getD ""
  let basic := scanFirst basicInfoAt all_text.data
  let field_size0 := match basic with | some (d1, _) => (⟨d1⟩ : String) ++ "頭" | none => ""
  let popularity0 := match basic with | some (_, d3) => (⟨d3⟩ : String) ++ "番人気" | none => ""
  let finish0 := venueFinishLoop allVenues race_line
  let passage_position :=
    match scanFirst passage4At all_text.data with
    | some p => p
    | none => (scanFirst passage2At all_text.data).getD ""
  let alt :=
    if finish0 = "" then
      match scanFirst altFinishAt all_text.data with
      | some (a, b) =>
        (((⟨a⟩ : String) ++ "着", (⟨b⟩ : String) ++ "頭",
          match scanFirst popAt all_text.data with
          | some p => p ++ "番人気"
          | none => popularity0) : String × String × String)
      | none => (finish0, field_size0, popularity0)
    else (finish0, field_size0, popularity0)
  let race_name := raceNameScan context_lines
  let wd := winnerScan context_lines
  { date := date, venue := venue, race_name := race_name, course_info := course_info
  , finish_position := alt.1, passage_position := passage_position
  , field_size := alt.2.1, popularity := alt.2.2, jockey := "", weight := ""
  , time := time, track_condition := track_condition
  , winner_name := wd.1, time_diff := wd.2 }

-- ## 4.3 Entrant Block Segmenter + Field Extractor (`extract_horses_data`)

def initHorse (f n : String) : EntrantEntry :=
  { frame_number := f, horse_number := n, horse_name := "", father := "", mother := ""
  , mother_father := "", trainer := "", jockey := "", weight := "", age := "", sex := ""
  , coat_color := "", odds := "", popularity := "", past_races := [], stable_type := ""
  , recent_form := "", load_weight := "" }

-- `re.sub(r'B$', '', s)`: one trailing `B` removed.
def stripTrailingB (s : String) : String :=
  if s.data.getLast? = some 'B' then ⟨s.data.dropLast⟩ else s

-- `re.search(r'\(([^)]+)\)', s)`.
def parenCapture (s : String) : Option String :=
  scanFirst (fun cs =>
    match cs with
    | '(' :: r =>
      let g := r.takeWhile (fun c => c != ')')
      if g ≠ [] ∧ (r.drop g.length).head? = some ')' then some (⟨g⟩ : String) else none
    | _ => none) s.data

-- `re.search(r'(美浦|栗東)・(.+)', stable_line)`.
def stableCapture (s : String) : Option (String × String) :=
  scanFirst (fun cs =>
    if leadsWith "美浦・".data cs then
      let r := cs.drop 3
      if r = [] then none else some (("美浦" : String), (⟨r⟩ : String))
    else if leadsWith "栗東・".data cs then
      let r := cs.drop 3
      if r = [] then none else some (("栗東" : String), (⟨r⟩ : String))
    else none) s.data

-- The five offset-based pedigree/stable steps after a header line.
def pedStep1 (p : EntrantEntry × List String) : EntrantEntry × List String :=
  match p with
  | (hd, []) => (hd, [])
  | (hd, l :: ls) =>
    if pyStrip l ≠ "" then ({ hd with father := pyStrip l }, ls) else (hd, l :: ls)

def pedStep2 (p : EntrantEntry × List String) : EntrantEntry × List String :=
  match p with
  | (hd, []) => (hd, [])
  | (hd, l :: ls) =>
    if pyStrip l ≠ "" then ({ hd with horse_name := stripTrailingB (pyStrip l) }, ls)
    else (hd, l :: ls)

def pedStep3 (p : EntrantEntry × List String) : EntrantEntry × List String :=
  match p with
  | (hd, []) => (hd, [])
  | (hd, l :: ls) =>
    if pyStrip l ≠ "" then ({ hd with mother := pyStrip l }, ls) else (hd, l :: ls)

def pedStep4 (p : EntrantEntry × List String) : EntrantEntry × List String :=
  match p with
  | (hd, []) => (hd, [])
  | (hd, l :: ls) =>
    if pyStrip l ≠ "" then
      (match parenCapture (pyStrip l) with
       | some g => { hd with mother_father := g }
       | none => hd, ls)
    else (hd, l :: ls)

def pedStep5 (p : EntrantEntry × List String) : EntrantEntry × List String :=
  match p with
  | (hd, []) => (hd, [])
  | (hd, l :: ls) =>
    if containsSub "美浦" l || containsSub "栗東" l then
      (match stableCapture (pyStrip l) with
       | some (st, tr) => { hd with stable_type := st, trainer := pyStrip tr }
       | none => hd, ls)
    else (hd, l :: ls)

def consumePedigree (hd : EntrantEntry) (ls : List String) : EntrantEntry × List String :=
  pedStep5 (pedStep4 (pedStep3 (pedStep2 (pedStep1 (hd, ls)))))

-- `re.search(r'(\d+)kg\(([+-]?\d+)\)', line)`.
def weightCapture (s : String) : Option (String × String) :=
  scanFirst (fun cs =>
    let d := cs.takeWhile isPyDigit
    if d = [] then none
    else if leadsWith "kg(".data (cs.drop d.length) then
      let r := cs.drop (d.length + 3)
      let sr := match r with
                | '+' :: t => (("+" : String), t)
                | '-' :: t => (("-" : String), t)
                | t => (("" : String), t)
      let d2 := sr.2.takeWhile isPyDigit
      if d2 ≠ [] ∧ (sr.2.drop d2.length).head? = some ')' then
        some ((⟨d⟩ : String), sr.1 ++ (⟨d2⟩ : String))
      else none
    else none) s.data

-- `re.search(r'(\d+\.\d+)\s+\((\d+)人気\)', line)`.
def oddsCapture (s : String) : Option (String × String) :=
  scanFirst (fun cs =>
    let d1 := cs.takeWhile isPyDigit
    if d1 = [] then none
    else
      match cs.drop d1.length with
      | '.' :: r =>
        let d2 := r.takeWhile isPyDigit
        if d2 = [] then none
        else
          let r2 := r.drop d2.length
          let w := r2.takeWhile isPySpace
          if w = [] then none
          else
            match r2.drop w.length with
            | '(' :: r3 =>
              let d3 := r3.takeWhile isPyDigit
              if d3 ≠ [] ∧ leadsWith "人気)".data (r3.drop d3.length) then
                some ((⟨d1 ++ '.' :: d2⟩ : String), (⟨d3⟩ : String))
              else none
            | _ => none
      | _ => none) s.data

-- `re.search(r'^([牡牝セ])(\d+)(.+)$', line)`: the trailing `.+` forces
-- at least one character after the greedy digit run.
def ageCapture (s : String) : Option (String × String × String) :=
  match s.data with
  | c :: r =>
    if c = '牡' ∨ c = '牝' ∨ c = 'セ' then
      let d := r.takeWhile isPyDigit
      let rest := r.drop d.length
      if d = [] then none
      else if rest ≠ [] then some ((⟨[c]⟩ : String), (⟨d⟩ : String), (⟨rest⟩ : String))
      else
        match d.reverse with
        | x :: y :: ys => some ((⟨[c]⟩ : String), (⟨(y :: ys).reverse⟩ : String), (⟨[x]⟩ : String))
        | _ => none
    else none
  | [] => none

-- `re.search(r'\d{4}\.\d{2}\.\d{2}', line)` trigger for a past race.
def dateTrigger (s : String) : Bool := (scanFirst dateDotsConsume s.data).isSome

-- The first-match-wins rule chain of the inner scanning loop.  `cur` is
-- the stripped current line, `l` its raw form, `ls` the raw tail.
def stepRules (hd : EntrantEntry) (cur l : String) (ls : List String) : EntrantEntry :=
  let kDate := fun (hd : EntrantEntry) =>
    if dateTrigger cur then
      { hd with past_races := hd.past_races ++ [parse_past_race cur ((l :: ls).take 8)] }
    else hd
  let kLoad := fun (hd : EntrantEntry) =>
    if decimalExact cur then
      if hd.load_weight = "" then { hd with load_weight := cur ++ "kg" } else kDate hd
    else kDate hd
  let kAge := fun (hd : EntrantEntry) =>
    match ageCapture cur with
    | some (sx, ag, co) =>
      if hd.age = "" then
        let hd1 := { hd with sex := sx, age := ag ++ "歳", coat_color := co }
        match ls with
        | l1 :: rest1 =>
          if pyStrip l1 ≠ "" then
            match rest1 with
            | l2 :: _ =>
              if decimalExact (pyStrip l2) then { hd1 with jockey := pyStrip l1 } else hd1
            | [] => hd1
          else hd1
        | [] => hd1
      else kLoad hd
    | none => kLoad hd
  let kOdds := fun (hd : EntrantEntry) =>
    match oddsCapture cur with
    | some (a, b) =>
      if hd.odds = "" then { hd with odds := a, popularity := b ++ "番人気" } else kAge hd
    | none => kAge hd
  match weightCapture cur with
  | some (a, b) =>
    if hd.weight = "" then { hd with weight := a ++ "kg(" ++ b ++ ")" } else kOdds hd
  | none => kOdds hd

-- The inner loop: consume lines until the next header or end of input.
def scanLoop (hd : EntrantEntry) : List String → EntrantEntry × List String
  | [] => (hd, [])
  | l :: ls =>
    let cur := pyStrip l
    if (headerMatch cur).isSome then (hd, l :: ls)
    else if cur = "" then scanLoop hd ls
    else scanLoop (stepRules hd cur l ls) ls

-- The outer cursor loop, fuel-based (each step consumes at least one
-- line, so `length + 1` fuel always suffices).
def extractAux : Nat → List String → List EntrantEntry
  | 0, _ => []
  | _ + 1, [] => []
  | fuel + 1, l :: ls =>
    match headerMatch (pyStrip l) with
    | some (f, n) =>
      let p := consumePedigree (initHorse f n) ls
      let s := scanLoop p.1 p.2
      s.1 :: extractAux fuel s.2
    | none => extractAux fuel ls

def extract_horses_data (lines : List String) : List EntrantEntry :=
  extractAux (lines.length + 1) lines

-- ## 4.5 Training-Record Extractor (`extract_training_data`)

def mkTraining (l : String) : TrainingRecord :=
  let parts := splitWs l
  let dt := parts.foldl (fun (p : String × String) part =>
      if scanHas (fun cs => (dateSlashConsume cs).isSome) part.data then (part, p.2)
      else if hasDecimal part then (p.1, part)
      else p) ("", "")
  { horse_name := "", date := dt.1, course := "", condition := "", jockey := ""
  , time := dt.2, evaluation := "" }

def extract_training_data (lines : List String) : List TrainingRecord :=
  (lines.foldl (fun (acc : List TrainingRecord × Bool) l =>
     if containsSub "調教タイム" l then (acc.1, true)
     else if acc.2 && hasDecimal l then (acc.1 ++ [mkTraining l], acc.2)
     else acc) ([], false)).1

-- ## Top level (`parse_keiba_data` on a `KeibaDataOrganizer` object)

structure KeibaState where
  race_info : RaceInfo
  horses_data : List EntrantEntry
  training_data : List TrainingRecord
deriving DecidableEq

def initKeibaState : KeibaState :=
  { race_info := initRaceInfo, horses_data := [], training_data := [] }

structure KeibaResult where
  race_info : RaceInfo
  horses_data : List EntrantEntry
  training_data : List TrainingRecord
deriving DecidableEq

-- The method reassigns all three instance fields before returning them,
-- so it is modelled as state-passing that ignores the incoming state.
def parse_keiba_data (st : KeibaState) (text : String) : KeibaState × KeibaResult :=
  let lines := normalizeLines text
  let filtered_lines := filter_training_section lines
  let ri := extract_race_info filtered_lines
  let hs := extract_horses_data filtered_lines
  let td := extract_training_data lines
  ({ race_info := ri, horses_data := hs, training_data := td },
   { race_info := ri, horses_data := hs, training_data := td })

-- Key (frame number, horse number) of an extracted entrant.
def keyOf (h : EntrantEntry) : String × String := (h.frame_number, h.horse_number)

-- Header capture of a line, as used to state order preservation.
def headerKey (l : String) : Option (String × String) := headerMatch (pyStrip l)

-- The separation condition under which the entrant count matches the
-- header count: no header line occurs among the five lines that the
-- positional pedigree/stable extraction may consume after a header.
inductive WellSep : List String → Prop
  | nil : WellSep []
  | skip {l : String} {ls : List String} :
      isHeaderLine l = false → WellSep ls → WellSep (l :: ls)
  | block {l : String} {ls : List String} :
      isHeaderLine l = true → (∀ x ∈ ls.take 5, isHeaderLine x = false) →
      WellSep ls → WellSep (l :: ls)

-- # Theorems

-- ## Training-Section Filter lemmas

theorem filterStep_true (l : String) : filterStep true l = (true, none) := by
  unfold filterStep
  split
  · rfl
  · simp

theorem filterAux_true (ls : List String) : filterAux true ls = [] := by
  induction ls with
  | nil => rfl
  | cons l ls ih => rw [filterAux, filterStep_true]; exact ih

theorem filterStep_false (l : String) :
    filterStep false l =
      if trainingHeading l || colHeaderPat l then (true, none) else (false, some l) := by
  unfold filterStep
  by_cases h1 : trainingHeading l
  · simp [h1]
  · by_cases h2 : colHeaderPat l
    · simp [h1, h2]
    · simp [h1, h2]

-- Because the skipping state drops every line, the filter output is
-- exactly the prefix of lines before the first training trigger.
theorem filterAux_false (ls : List String) :
    filterAux false ls = ls.takeWhile (fun l => !(trainingHeading l || colHeaderPat l)) := by
  induction ls with
  | nil => rfl
  | cons l ls ih =>
    rw [filterAux, filterStep_false]
    cases h1 : trainingHeading l with
    | true => simp [List.takeWhile_cons, h1, filterAux_true]
    | false =>
      cases h2 : colHeaderPat l with
      | true => simp [List.takeWhile_cons, h1, h2, filterAux_true]
      | false => simp [List.takeWhile_cons, h1, h2, ih]

theorem takeWhile_idem {p : String → Bool} (ls : List String) :
    (ls.takeWhile p).takeWhile p = ls.takeWhile p := by
  induction ls with
  | nil => rfl
  | cons l ls ih =>
    cases h : p l with
    | true => simp [List.takeWhile_cons, h, ih]
    | false => simp [List.takeWhile_cons, h]

/-- Claim C1: the spec says that while the filter is SKIPPING, a line
matching the frame/horse-number header pattern transitions back to
NORMAL and is kept.  In the code the branch implementing this is
unreachable (`if (skip_training_data or ...): continue` fires first), so
after the `調教タイム` heading the header line `"1 1"` is dropped
and the output is empty, contradicting the claim. -/
theorem claim_C1_skip_never_exits :
    filter_training_section ["調教タイム", "1 1"] = [] ∧ isHeaderLine "1 1" = true := by
  constructor
  · rfl
  · rfl

/-- Claim C7: the Training-Section Filter is idempotent: filtering its own
output returns the identical sequence. -/
theorem claim_C7_filter_idempotent (lines : List String) :
    filter_training_section (filter_training_section lines) = filter_training_section lines := by
  unfold filter_training_section
  rw [filterAux_false, filterAux_false, takeWhile_idem]

-- ## Race-Info Extractor lemmas

theorem updRaceNumber_pres (ri : RaceInfo) (l : String) :
    (updRaceNumber ri l).grade = ri.grade ∧ (updRaceNumber ri l).date = ri.date := by
  unfold updRaceNumber; split <;> exact ⟨rfl, rfl⟩

theorem updRaceName_pres (ri : RaceInfo) (l : String) :
    (updRaceName ri l).grade = ri.grade ∧ (updRaceName ri l).date = ri.date ∧
    (updRaceName ri l).race_number = ri.race_number := by
  unfold updRaceName; split <;> split <;> exact ⟨rfl, rfl, rfl⟩

theorem updTime_pres (ri : RaceInfo) (l : String) :
    (updTime ri l).grade = ri.grade ∧ (updTime ri l).date = ri.date ∧
    (updTime ri l).race_number = ri.race_number := by
  unfold updTime; split <;> exact ⟨rfl, rfl, rfl⟩

theorem updDist_pres (ri : RaceInfo) (l : String) :
    (updDist ri l).grade = ri.grade ∧ (updDist ri l).date = ri.date ∧
    (updDist ri l).race_number = ri.race_number := by
  unfold updDist; split <;> exact ⟨rfl, rfl, rfl⟩

theorem updDir_pres (ri : RaceInfo) (l : String) :
    (updDir ri l).grade = ri.grade ∧ (updDir ri l).date = ri.date ∧
    (updDir ri l).race_number = ri.race_number := by
  unfold updDir; split <;> exact ⟨rfl, rfl, rfl⟩

theorem updWeather_pres (ri : RaceInfo) (l : String) :
    (updWeather ri l).grade = ri.grade ∧ (updWeather ri l).date = ri.date ∧
    (updWeather ri l).race_number = ri.race_number := by
  unfold updWeather; split <;> exact ⟨rfl, rfl, rfl⟩

theorem updTrack_pres (ri : RaceInfo) (l : String) :
    (updTrack ri l).grade = ri.grade ∧ (updTrack ri l).date = ri.date ∧
    (updTrack ri l).race_number = ri.race_number := by
  unfold updTrack; split <;> exact ⟨rfl, rfl, rfl⟩

theorem updComposite_pres (ri : RaceInfo) (l : String) :
    (updComposite ri l).grade = ri.grade ∧ (updComposite ri l).date = ri.date ∧
    (updComposite ri l).race_number = ri.race_number := by
  unfold updComposite
  split
  · refine ⟨?_, ?_, ?_⟩
    · rw [(updTrack_pres _ _).1, (updWeather_pres _ _).1, (updDir_pres _ _).1,
         (updDist_pres _ _).1, (updTime_pres _ _).1]
    · rw [(updTrack_pres _ _).2.1, (updWeather_pres _ _).2.1, (updDir_pres _ _).2.1,
         (updDist_pres _ _).2.1, (updTime_pres _ _).2.1]
    · rw [(updTrack_pres _ _).2.2, (updWeather_pres _ _).2.2, (updDir_pres _ _).2.2,
         (updDist_pres _ _).2.2, (updTime_pres _ _).2.2]
  · exact ⟨rfl, rfl, rfl⟩

theorem updVenue_pres (ri : RaceInfo) (l : String) :
    (updVenue ri l).grade = ri.grade ∧ (updVenue ri l).date = ri.date ∧
    (updVenue ri l).race_number = ri.race_number := by
  unfold updVenue; split <;> exact ⟨rfl, rfl, rfl⟩

theorem updEntry_pres (ri : RaceInfo) (l : String) :
    (updEntry ri l).grade = ri.grade ∧ (updEntry ri l).date = ri.date ∧
    (updEntry ri l).race_number = ri.race_number := by
  unfold updEntry; split
  · split <;> exact ⟨rfl, rfl, rfl⟩
  · exact ⟨rfl, rfl, rfl⟩

theorem updPrize_pres (ri : RaceInfo) (l : String) :
    (updPrize ri l).grade = ri.grade ∧ (updPrize ri l).date = ri.date ∧
    (updPrize ri l).race_number = ri.race_number := by
  unfold updPrize; split <;> exact ⟨rfl, rfl, rfl⟩

theorem raceStep_grade_date (ri : RaceInfo) (l : String) :
    (raceStep ri l).grade = ri.grade ∧ (raceStep ri l).date = ri.date := by
  simp only [raceStep]
  split
  · exact updRaceNumber_pres ri l
  · constructor
    · rw [(updPrize_pres _ _).1, (updEntry_pres _ _).1, (updVenue_pres _ _).1,
         (updComposite_pres _ _).1, (updRaceName_pres _ _).1, (updRaceNumber_pres _ _).1]
    · rw [(updPrize_pres _ _).2.1, (updEntry_pres _ _).2.1, (updVenue_pres _ _).2.1,
         (updComposite_pres _ _).2.1, (updRaceName_pres _ _).2.1, (updRaceNumber_pres _ _).2]

theorem updRaceNumber_rn (ri : RaceInfo) (l : String) :
    (updRaceNumber ri l).race_number =
      if raceNumExact (pyStrip l) then pyStrip l else ri.race_number := by
  unfold updRaceNumber; split <;> simp_all

theorem raceStep_rn (ri : RaceInfo) (l : String) :
    (raceStep ri l).race_number =
      if raceNumExact (pyStrip l) then pyStrip l else ri.race_number := by
  simp only [raceStep]
  split
  · exact updRaceNumber_rn ri l
  · rw [(updPrize_pres _ _).2.2, (updEntry_pres _ _).2.2, (updVenue_pres _ _).2.2,
       (updComposite_pres _ _).2.2, (updRaceName_pres _ _).2.2, updRaceNumber_rn]

theorem foldl_grade_date (lines : List String) :
    ∀ ri : RaceInfo, (lines.foldl raceStep ri).grade = ri.grade ∧
      (lines.foldl raceStep ri).date = ri.date := by
  induction lines with
  | nil => intro ri; exact ⟨rfl, rfl⟩
  | cons l ls ih =>
    intro ri
    rw [List.foldl_cons]
    exact ⟨(ih _).1.trans (raceStep_grade_date ri l).1,
           (ih _).2.trans (raceStep_grade_date ri l).2⟩

/-- Claim C10: the race-info record returned by `extract_race_info`
always has `grade` and `date` equal to the empty string: no extraction
rule ever assigns either field. -/
theorem claim_C10_grade_date_empty (lines : List String) :
    (extract_race_info lines).grade = "" ∧ (extract_race_info lines).date = "" :=
  foldl_grade_date lines initRaceInfo

theorem foldl_rn_skip (ys : List String) (h : ∀ y ∈ ys, raceNumExact (pyStrip y) = false) :
    ∀ ri : RaceInfo, (ys.foldl raceStep ri).race_number = ri.race_number := by
  induction ys with
  | nil => intro ri; rfl
  | cons y ys ih =>
    intro ri
    rw [List.foldl_cons]
    rw [ih (fun x hx => h x (List.mem_cons_of_mem y hx)) _, raceStep_rn,
       h y (List.mem_cons_self y ys)]
    simp

/-- Claim C3 (amended): `race_number` is reassigned on every line whose
stripped form matches the digits-plus-`R` pattern, so the resulting
`race_number` equals the LAST such line of the input, not the first. -/
theorem claim_C3_amended (xs ys : List String) (l : String)
    (h1 : raceNumExact (pyStrip l) = true)
    (h2 : ∀ y ∈ ys, raceNumExact (pyStrip y) = false) :
    (extract_race_info (xs ++ l :: ys)).race_number = pyStrip l := by
  unfold extract_race_info
  rw [List.foldl_append, List.foldl_cons, foldl_rn_skip ys h2, raceStep_rn, h1]
  simp

/-- Claim C3 (counterexample): on the input `["1R", "2R"]` the extractor
returns `"2R"`, not the first match `"1R"`: later matches do replace the
earlier value, refuting the first-match-wins claim. -/
theorem claim_C3_counterexample :
    (extract_race_info ["1R", "2R"]).race_number = "2R" ∧ ("2R" : String) ≠ "1R" := by
  constructor
  · rfl
  · decide

/-- Claim C3 (witness): instance of the amended claim at a concrete
input whose last matching line is `"12R"`. -/
theorem claim_C3_witness :
    (extract_race_info (["1R"] ++ "12R" :: ["おわり"])).race_number = pyStrip "12R" :=
  claim_C3_amended ["1R"] ["おわり"] "12R" (by decide) (by decide)

/-- Claim C5: the spec says a line matching the age/class qualifier is
accepted as a fallback race_name when nothing matched the priority
rules.  The fallback branch is an `elif` guarded by the negation of the
condition that reaches it, hence dead code: on `["3歳以上1勝クラス"]`
(which matches the qualifier pattern but no priority rule) the extractor
leaves `race_name` empty, contradicting the claim. -/
theorem claim_C5_fallback_unreachable :
    (extract_race_info ["3歳以上1勝クラス"]).race_name = "" ∧
    ageClassPat "3歳以上1勝クラス" = true ∧
    specialNameCond "3歳以上1勝クラス" = false := by
  refine ⟨rfl, rfl, rfl⟩

-- ## Top-level purity and empty-input claims

/-- Claim C9: on the empty input text, `parse_keiba_data` returns a
race-info record with every field equal to the empty string, an empty
entrant list and an empty training list. -/
theorem claim_C9_empty_input :
    (parse_keiba_data initKeibaState "").2 =
      { race_info :=
          { race_number := "", race_name := "", date := "", time := "", venue := ""
          , course_type := "", distance := "", direction := "", weather := ""
          , track_condition := "", grade := "", prize_money := "", entry_count := "" }
      , horses_data := [], training_data := [] } := rfl

/-- Claim C8: `parse_keiba_data` is a pure function of the input text:
its result (and the state it leaves behind) does not depend on the state
accumulated by any earlier invocation, because every field of the state
is reassigned from the text alone. -/
theorem claim_C8_state_independent (st1 st2 : KeibaState) (text : String) :
    parse_keiba_data st1 text = parse_keiba_data st2 text := rfl

-- ## Entrant extraction lemmas (claims C2 and C4)

theorem stepRules_key (hd : EntrantEntry) (cur l : String) (ls : List String) :
    (stepRules hd cur l ls).frame_number = hd.frame_number ∧
    (stepRules hd cur l ls).horse_number = hd.horse_number := by
  simp only [stepRules]
  repeat' split <;> try exact ⟨rfl, rfl⟩

theorem scanLoop_key (ls : List String) : ∀ hd : EntrantEntry,
    (scanLoop hd ls).1.frame_number = hd.frame_number ∧
    (scanLoop hd ls).1.horse_number = hd.horse_number := by
  induction ls with
  | nil => intro hd; exact ⟨rfl, rfl⟩
  | cons l ls ih =>
    intro hd
    rw [scanLoop]
    split
    · exact ⟨rfl, rfl⟩
    · split
      · exact ih hd
      · exact ⟨(ih _).1.trans (stepRules_key hd _ l ls).1,
               (ih _).2.trans (stepRules_key hd _ l ls).2⟩

theorem scanLoop_snd (ls : List String) : ∀ hd : EntrantEntry,
    (scanLoop hd ls).2 = ls.dropWhile (fun l => !isHeaderLine l) := by
  induction ls with
  | nil => intro hd; rfl
  | cons l ls ih =>
    intro hd
    simp only [scanLoop, List.dropWhile_cons]
    cases hh : isHeaderLine l with
    | true =>
      have hh2 : (headerMatch (pyStrip l)).isSome = true := hh
      simp [hh2, hh]
    | false =>
      have hh2 : (headerMatch (pyStrip l)).isSome = false := hh
      simp only [hh2, hh, Bool.false_eq_true, if_false, Bool.not_false, if_true]
      split
      · exact ih hd
      · exact ih _

theorem pedStep1_spec (p : EntrantEntry × List String) :
    (∃ m ≤ 1, (pedStep1 p).2 = p.2.drop m) ∧
    (pedStep1 p).1.frame_number = p.1.frame_number ∧
    (pedStep1 p).1.horse_number = p.1.horse_number := by
  match p with
  | (hd, []) => exact ⟨⟨0, by omega, rfl⟩, rfl, rfl⟩
  | (hd, l :: ls) =>
    simp only [pedStep1]
    split
    · exact ⟨⟨1, by omega, rfl⟩, rfl, rfl⟩
    · exact ⟨⟨0, by omega, rfl⟩, rfl, rfl⟩

theorem pedStep2_spec (p : EntrantEntry × List String) :
    (∃ m ≤ 1, (pedStep2 p).2 = p.2.drop m) ∧
    (pedStep2 p).1.frame_number = p.1.frame_number ∧
    (pedStep2 p).1.horse_number = p.1.horse_number := by
  match p with
  | (hd, []) => exact ⟨⟨0, by omega, rfl⟩, rfl, rfl⟩
  | (hd, l :: ls) =>
    simp only [pedStep2]
    split
    · exact ⟨⟨1, by omega, rfl⟩, rfl, rfl⟩
    · exact ⟨⟨0, by omega, rfl⟩, rfl, rfl⟩

theorem pedStep3_spec (p : EntrantEntry × List String) :
    (∃ m ≤ 1, (pedStep3 p).2 = p.2.drop m) ∧
    (pedStep3 p).1.frame_number = p.1.frame_number ∧
    (pedStep3 p).1.horse_number = p.1.horse_number := by
  match p with
  | (hd, []) => exact ⟨⟨0, by omega, rfl⟩, rfl, rfl⟩
  | (hd, l :: ls) =>
    simp only [pedStep3]
    split
    · exact ⟨⟨1, by omega, rfl⟩, rfl, rfl⟩
    · exact ⟨⟨0, by omega, rfl⟩, rfl, rfl⟩

theorem pedStep4_spec (p : EntrantEntry × List String) :
    (∃ m ≤ 1, (pedStep4 p).2 = p.2.drop m) ∧
    (pedStep4 p).1.frame_number = p.1.frame_number ∧
    (pedStep4 p).1.horse_number = p.1.horse_number := by
  match p with
  | (hd, []) => exact ⟨⟨0, by omega, rfl⟩, rfl, rfl⟩
  | (hd, l :: ls) =>
    simp only [pedStep4]
    split
    · refine ⟨⟨1, by omega, rfl⟩, ?_, ?_⟩ <;> (split <;> rfl)
    · exact ⟨⟨0, by omega, rfl⟩, rfl, rfl⟩

theorem pedStep5_spec (p : EntrantEntry × List String) :
    (∃ m ≤ 1, (pedStep5 p).2 = p.2.drop m) ∧
    (pedStep5 p).1.frame_number = p.1.frame_number ∧
    (pedStep5 p).1.horse_number = p.1.horse_number := by
  match p with
  | (hd, []) => exact ⟨⟨0, by omega, rfl⟩, rfl, rfl⟩
  | (hd, l :: ls) =>
    simp only [pedStep5]
    split
    · refine ⟨⟨1, by omega, rfl⟩, ?_, ?_⟩ <;> (split <;> rfl)
    · exact ⟨⟨0, by omega, rfl⟩, rfl, rfl⟩

theorem consumePedigree_spec (hd : EntrantEntry) (ls : List String) :
    (∃ m ≤ 5, (consumePedigree hd ls).2 = ls.drop m) ∧
    (consumePedigree hd ls).1.frame_number = hd.frame_number ∧
    (consumePedigree hd ls).1.horse_number = hd.horse_number := by
  obtain ⟨⟨m1, hm1, e1⟩, k1a, k1b⟩ := pedStep1_spec (hd, ls)
  obtain ⟨⟨m2, hm2, e2⟩, k2a, k2b⟩ := pedStep2_spec (pedStep1 (hd, ls))
  obtain ⟨⟨m3, hm3, e3⟩, k3a, k3b⟩ := pedStep3_spec (pedStep2 (pedStep1 (hd, ls)))
  obtain ⟨⟨m4, hm4, e4⟩, k4a, k4b⟩ := pedStep4_spec (pedStep3 (pedStep2 (pedStep1 (hd, ls))))
  obtain ⟨⟨m5, hm5, e5⟩, k5a, k5b⟩ :=
    pedStep5_spec (pedStep4 (pedStep3 (pedStep2 (pedStep1 (hd, ls)))))
  refine ⟨⟨m5 + (m4 + (m3 + (m2 + m1))), by omega, ?_⟩, ?_, ?_⟩
  · show (pedStep5 _).2 = _
    rw [e5, e4, e3, e2, e1, List.drop_drop, List.drop_drop, List.drop_drop, List.drop_drop]
    congr 1
    omega
  · show (pedStep5 _).1.frame_number = _
    rw [k5a, k4a, k3a, k2a, k1a]
  · show (pedStep5 _).1.horse_number = _
    rw [k5b, k4b, k3b, k2b, k1b]

theorem wellSep_tail {l : String} {ls : List String} (h : WellSep (l :: ls)) : WellSep ls := by
  cases h with
  | skip _ h2 => exact h2
  | block _ _ h3 => exact h3

theorem wellSep_drop (n : Nat) : ∀ ls : List String, WellSep ls → WellSep (ls.drop n) := by
  induction n with
  | zero => intro ls h; exact h
  | succ n ih =>
    intro ls h
    match ls with
    | [] => exact WellSep.nil
    | l :: t => rw [List.drop_succ_cons]; exact ih t (wellSep_tail h)

theorem dropWhile_eq_drop {p : String → Bool} (ls : List String) :
    ∃ n, ls.dropWhile p = ls.drop n := by
  induction ls with
  | nil => exact ⟨0, rfl⟩
  | cons l t ih =>
    cases hp : p l with
    | true =>
      obtain ⟨n, hn⟩ := ih
      exact ⟨n + 1, by rw [List.dropWhile_cons, if_pos hp, List.drop_succ_cons, hn]⟩
    | false => exact ⟨0, by simp [List.dropWhile_cons, hp]⟩

theorem wellSep_dropWhile {p : String → Bool} {ls : List String} (h : WellSep ls) :
    WellSep (ls.dropWhile p) := by
  obtain ⟨n, hn⟩ := dropWhile_eq_drop ls
  rw [hn]; exact wellSep_drop n ls h

theorem wellSep_head_block {l : String} {ls : List String} (h : WellSep (l :: ls))
    (hh : isHeaderLine l = true) : ∀ x ∈ ls.take 5, isHeaderLine x = false := by
  cases h with
  | skip h1 _ => rw [h1] at hh; cases hh
  | block _ h2 _ => exact h2

theorem notHeader_none {l : String} (h : isHeaderLine l = false) :
    headerMatch (pyStrip l) = none := by
  unfold isHeaderLine at h
  exact Option.not_isSome_iff_eq_none.mp (by simp [h])

theorem filterMap_drop_of_noHeader :
    ∀ (m : Nat) (ls : List String), (∀ x ∈ ls.take m, isHeaderLine x = false) →
      ls.filterMap (fun l => headerMatch (pyStrip l)) =
        (ls.drop m).filterMap (fun l => headerMatch (pyStrip l)) := by
  intro m
  induction m with
  | zero => intro ls _; rfl
  | succ m ih =>
    intro ls h
    match ls with
    | [] => rfl
    | l :: t =>
      have hl : isHeaderLine l = false := h l (by simp [List.take_succ_cons])
      rw [List.filterMap_cons, notHeader_none hl, List.drop_succ_cons,
         ih t (fun x hx => h x (by simp [List.take_succ_cons]; right; exact hx))]

theorem filterMap_dropWhile (ls : List String) :
    (ls.dropWhile (fun l => !isHeaderLine l)).filterMap (fun l => headerMatch (pyStrip l)) =
      ls.filterMap (fun l => headerMatch (pyStrip l)) := by
  induction ls with
  | nil => rfl
  | cons l t ih =>
    rw [List.dropWhile_cons]
    cases hh : isHeaderLine l with
    | true => rw [if_neg (by simp [hh])]
    | false =>
      rw [if_pos (by simp [hh]), List.filterMap_cons, notHeader_none hh, ih]

theorem filterMap_length_countP (ls : List String) :
    (ls.filterMap (fun l => headerMatch (pyStrip l))).length =
      ls.countP (fun l => isHeaderLine l) := by
  induction ls with
  | nil => rfl
  | cons l t ih =>
    rw [List.filterMap_cons, List.countP_cons]
    cases hh : isHeaderLine l with
    | true =>
      obtain ⟨v, hv⟩ := Option.isSome_iff_exists.mp (by simpa [isHeaderLine] using hh)
      rw [hv]
      simp [ih]
    | false =>
      rw [notHeader_none hh]
      simp [ih]

theorem take_five_sub {m : Nat} {ls : List String} {x : String} (hm : m ≤ 5)
    (hx : x ∈ ls.take m) : x ∈ ls.take 5 := by
  have : ls.take m = (ls.take 5).take m := by rw [List.take_take, min_eq_left hm]
  rw [this] at hx
  exact List.take_subset m _ hx

theorem extractAux_spec : ∀ (fuel : Nat) (ls : List String), ls.length < fuel → WellSep ls →
    (extractAux fuel ls).map keyOf = ls.filterMap (fun l => headerMatch (pyStrip l)) := by
  intro fuel
  induction fuel with
  | zero => intro ls h _; exact absurd h (Nat.not_lt_zero _)
  | succ fuel ih =>
    intro ls hlen hws
    match ls with
    | [] => rfl
    | l :: t =>
      cases hh : headerMatch (pyStrip l) with
      | none =>
        rw [extractAux]
        rw [hh]
        rw [List.filterMap_cons, hh]
        exact ih t (by simpa using Nat.lt_of_succ_lt_succ hlen) (wellSep_tail hws)
      | some fn =>
        have hhl : isHeaderLine l = true := by simp [isHeaderLine, hh]
        have htake := wellSep_head_block hws hhl
        obtain ⟨⟨m, hm5, hdrop⟩, kfa, kfb⟩ := consumePedigree_spec (initHorse fn.1 fn.2) t
        rw [extractAux]
        rw [hh]
        simp only [List.map_cons]
        have hsnd : (scanLoop (consumePedigree (initHorse fn.1 fn.2) t).1
            (consumePedigree (initHorse fn.1 fn.2) t).2).2 =
            (t.drop m).dropWhile (fun l => !isHeaderLine l) := by
          rw [scanLoop_snd, hdrop]
        have hkey : keyOf (scanLoop (consumePedigree (initHorse fn.1 fn.2) t).1
            (consumePedigree (initHorse fn.1 fn.2) t).2).1 = fn := by
          unfold keyOf
          rw [(scanLoop_key _ _).1, (scanLoop_key _ _).2, kfa, kfb]
          rfl
        rw [hkey, hsnd]
        rw [List.filterMap_cons, hh]
        have hlen2 : ((t.drop m).dropWhile (fun l => !isHeaderLine l)).length < fuel := by
          obtain ⟨n, hn⟩ := dropWhile_eq_drop (p := fun l => !isHeaderLine l) (t.drop m)
          have a3 : t.length < fuel := by simpa using Nat.lt_of_succ_lt_succ hlen
          rw [hn, List.length_drop, List.length_drop]
          omega
        have hws2 : WellSep ((t.drop m).dropWhile (fun l => !isHeaderLine l)) :=
          wellSep_dropWhile (wellSep_drop m t (wellSep_tail hws))
        rw [ih _ hlen2 hws2]
        rw [filterMap_dropWhile]
        rw [← filterMap_drop_of_noHeader m t (fun x hx => htake x (take_five_sub hm5 hx))]

/-- Claim C2 (amended): provided that no frame/horse-number header line
occurs among the five lines immediately following another header line
(the window the positional pedigree/stable extraction may consume), the
extracted entrant list has length exactly the number of header lines,
and its (frame_number, horse_number) pairs are the header captures in
input order. -/
theorem claim_C2_amended (lines : List String) (h : WellSep lines) :
    (extract_horses_data lines).length = lines.countP (fun l => isHeaderLine l) ∧
    (extract_horses_data lines).map keyOf =
      lines.filterMap (fun l => headerMatch (pyStrip l)) := by
  have hmain := extractAux_spec (lines.length + 1) lines (Nat.lt_succ_self _) h
  refine ⟨?_, hmain⟩
  have hlen := congrArg List.length hmain
  rw [List.length_map] at hlen
  rw [show extract_horses_data lines = extractAux (lines.length + 1) lines from rfl, hlen,
     filterMap_length_countP]

/-- Claim C2 (witness): instance of the amended claim on a one-header
input. -/
theorem claim_C2_witness :
    (extract_horses_data ["1 1"]).length = ["1 1"].countP (fun l => isHeaderLine l) ∧
    (extract_horses_data ["1 1"]).map keyOf =
      ["1 1"].filterMap (fun l => headerMatch (pyStrip l)) :=
  claim_C2_amended ["1 1"] (WellSep.block (by decide) (by simp) WellSep.nil)

/-- Claim C2 (counterexample): the input `["1 1", "2 2"]` contains two
syntactically valid header lines and no training section, yet the
extractor returns a single entrant, because the positional pedigree
extraction consumes the second header line as the father field. -/
theorem claim_C2_counterexample :
    (extract_horses_data ["1 1", "2 2"]).length = 1 ∧
    (["1 1", "2 2"].countP (fun l => isHeaderLine l)) = 2 := by
  constructor
  · rfl
  · rfl

/-- Claim C4 (counterexample): on the horse-name line
`"ExampleHorse B"` the code strips only the final `B` of the stripped
line, leaving `"ExampleHorse "` with a trailing space, not
`"ExampleHorse"` as the claim states. -/
theorem claim_C4_counterexample :
    (extract_horses_data ["1 1", "SireName", "ExampleHorse B", "DamName", "(DamSireName)"]).map
      (fun h => h.horse_name) = ["ExampleHorse "] ∧
    ("ExampleHorse " : String) ≠ "ExampleHorse" := by
  constructor
  · rfl
  · decide

/-- Claim C4 (amended): the horse-name line `"ExampleHorse B"` yields
horse_name `"ExampleHorse "` (the trailing `B` removed, the separating
space retained); a nonempty name line whose stripped form does not end
in `B` is extracted unchanged. -/
theorem claim_C4_amended (nl : String) (h1 : pyStrip nl ≠ "") :
    ((extract_horses_data ["1 1", "SireName", "ExampleHorse B", "DamName", "(DamSireName)"]).map
        (fun h => h.horse_name) = ["ExampleHorse "]) ∧
    ((pyStrip nl).data.getLast? ≠ some 'B' →
      (extract_horses_data ["1 1", "SireName", nl, "DamName", "(DamSireName)"]).map
        (fun h => h.horse_name) = [pyStrip nl]) := by
  constructor
  · rfl
  · intro h2
    show (extractAux 6 ["1 1", "SireName", nl, "DamName", "(DamSireName)"]).map
        (fun h => h.horse_name) = [pyStrip nl]
    simp only [extractAux, (by decide : headerMatch (pyStrip "1 1") = some ("1", "1"))]
    simp +decide [consumePedigree, pedStep1, pedStep2, pedStep3, pedStep4, pedStep5, h1,
      scanLoop, extractAux, stripTrailingB, h2,
      (by decide : parenCapture (pyStrip "(DamSireName)") = some ("DamSireName" : String))]

/-- Claim C4 (witness): instance of the amended claim at the concrete
name line `"PlainName"`. -/
theorem claim_C4_witness :
    (extract_horses_data ["1 1", "SireName", "PlainName", "DamName", "(DamSireName)"]).map
      (fun h => h.horse_name) = [pyStrip "PlainName"] :=
  (claim_C4_amended "PlainName" (by decide)).2 (by decide)

-- ## Past-Race Parser lemmas (claim C6)

theorem takeWhile_append_cons {p : Char → Bool} (xs : List Char) (y : Char) (r : List Char)
    (hx : ∀ c ∈ xs, p c = true) (hy : p y = false) :
    (xs ++ y :: r).takeWhile p = xs := by
  induction xs with
  | nil => simp [List.takeWhile_cons, hy]
  | cons a as ih =>
    have ha : p a = true := hx a (List.mem_cons_self a as)
    simp [List.takeWhile_cons, ha, ih (fun c hc => hx c (List.mem_cons_of_mem a hc))]

theorem winnerDiffAt_concat (nm tok rest : List Char) (h0 : nm ≠ []) (h1 : '(' ∉ nm)
    (ht : tok ≠ []) (htc : ∀ c ∈ tok, isDiffTok c = true) :
    winnerDiffAt (nm ++ '(' :: (tok ++ ')' :: rest)) = some (nm, tok) := by
  have e1 : (nm ++ '(' :: (tok ++ ')' :: rest)).takeWhile (fun c => c != '(') = nm :=
    takeWhile_append_cons nm '(' _ (fun c hc => by
      simp only [bne_iff_ne, ne_eq, decide_eq_true_eq]
      intro e; exact h1 (e ▸ hc)) (by simp)
  have e2 : (tok ++ ')' :: rest).takeWhile isDiffTok = tok :=
    takeWhile_append_cons tok ')' rest htc (by decide)
  simp only [winnerDiffAt, e1]
  rw [if_neg (by simpa using h0)]
  rw [List.drop_left]
  simp only [e2]
  rw [if_neg (by simpa using ht)]
  rw [List.drop_left]
  rfl

theorem winnerDiffSearch_concat (nm tok rest : List Char) (h0 : nm ≠ []) (h1 : '(' ∉ nm)
    (ht : tok ≠ []) (htc : ∀ c ∈ tok, isDiffTok c = true) :
    winnerDiffSearch (nm ++ '(' :: (tok ++ ')' :: rest)) = some (nm, tok) := by
  match nm, h0 with
  | a :: as, _ =>
    rw [List.cons_append, winnerDiffSearch, ← List.cons_append,
       winnerDiffAt_concat (a :: as) tok rest (by simp) h1 ht htc]

theorem parse_past_race_time_diff (rl : String) (ctx : List String) :
    (parse_past_race rl ctx).time_diff = (winnerScan ctx).2 := rfl

/-- Claim C6: for a context line consisting of a plausible winner name
(no parenthesis, containing a letter or ideograph after stripping, not a
digits-and-dashes passage look-alike) immediately followed by a
parenthesised token, the token `"(-)"` yields time_diff `"-"`, the
token `"(0.0)"` yields `"0.0"`, and the token `"(1.20)"` yields `"1.2"`
(signed-decimal reformatting to one decimal place). -/
theorem claim_C6_time_diff (nm : String) (h0 : nm.data ≠ []) (h1 : '(' ∉ nm.data)
    (h2 : isDigitDashOnly (pyStrip nm) = false) (h3 : hasNameChar (pyStrip nm) = true) :
    ((parse_past_race "" [nm ++ "(-)"]).time_diff = "-") ∧
    ((parse_past_race "" [nm ++ "(0.0)"]).time_diff = "0.0") ∧
    ((parse_past_race "" [nm ++ "(1.20)"]).time_diff = "1.2") := by
  refine ⟨?_, ?_, ?_⟩
  · rw [parse_past_race_time_diff, winnerScan,
       show (nm ++ "(-)").data = nm.data ++ '(' :: (['-'] ++ ')' :: []) from by
         rw [String.data_append]; rfl,
       winnerDiffSearch_concat nm.data ['-'] [] h0 h1 (by decide) (by decide)]
    simp only []
    rw [show ({ data := nm.data } : String) = nm from rfl]
    simp [h2, h3]
    decide
  · rw [parse_past_race_time_diff, winnerScan,
       show (nm ++ "(0.0)").data = nm.data ++ '(' :: (['0', '.', '0'] ++ ')' :: []) from by
         rw [String.data_append]; rfl,
       winnerDiffSearch_concat nm.data ['0', '.', '0'] [] h0 h1 (by decide) (by decide)]
    simp only []
    rw [show ({ data := nm.data } : String) = nm from rfl]
    simp [h2, h3]
    decide
  · rw [parse_past_race_time_diff, winnerScan,
       show (nm ++ "(1.20)").data = nm.data ++ '(' :: (['1', '.', '2', '0'] ++ ')' :: []) from by
         rw [String.data_append]; rfl,
       winnerDiffSearch_concat nm.data ['1', '.', '2', '0'] [] h0 h1 (by decide) (by decide)]
    simp only []
    rw [show ({ data := nm.data } : String) = nm from rfl]
    simp [h2, h3]
    decide

/-- Claim C6 (witness): instance of the classification at the concrete
winner name `"サンプル"`. -/
theorem claim_C6_witness :
    ((parse_past_race "" [("サンプル" : String) ++ "(-)"]).time_diff = "-") ∧
    ((parse_past_race "" [("サンプル" : String) ++ "(0.0)"]).time_diff = "0.0") ∧
    ((parse_past_race "" [("サンプル" : String) ++ "(1.20)"]).time_diff = "1.2") :=
  claim_C6_time_diff "サンプル" (by decide) (by decide) (by decide) (by decide)
